import Mathlib

/-!
# PyForgee build-orchestration engine: verification of the specification claims

Shallow embedding, in Lean 4, of the parts of the PyForgee source that the
claims C1-C10 are about:

* `src/core/protection_manager.py` : protection levels, default method lists,
  the `ProtectionManager.protect_code` loop, and the string-encoding
  obfuscation pass of `CustomObfuscator` (with a verified model of the
  `base64` encode/decode pair it relies on);
* `src/core/compression_handler.py` : `CompressionResult.__post_init__`,
  `UPXCompressor.compress` with its backup/restore discipline,
  `CustomCompressor` (the adaptive framed compressor) and the scoring and
  selection logic of `CompressionHandler`;
* `src/core/compiler_engine.py` : the three backend scores,
  `CompilerEngine.select_best_compiler`, `PyInstallerBackend.compile`,
  `NuitkaBackend.compile` and `CompilerEngine.compile`;
* `src/core/dependency_analyzer.py` : `DependencyAnalyzer._classify_dependencies`.

Modelling conventions, used throughout:

* Python byte strings are `List Nat` (each entry a byte value); Python text
  strings are Lean `String` except inside the obfuscator model, where a Python
  `str` is represented by its UTF-8 byte sequence (a `List Nat`).
* Host-dependent facts (which external tools answer their version probe,
  which files exist, file sizes, what a spawned subprocess does) enter as
  explicit parameters; a subprocess run is a value of an outcome type that
  can be a normal exit (with exit code and captured stderr) or a raised
  exception.
* Plain filesystem primitives (`shutil.copy2`, `shutil.move`, `os.remove`,
  `os.makedirs(..., exist_ok=True)`) are modelled as succeeding; only the
  compression/compilation subprocesses misbehave.  A Python `dict` is an
  association list keyed by its insertion order.
* Python `try/except` bodies are modelled by case analysis on the outcome
  values; an operation that catches everything is a total Lean function.
* Python float arithmetic on entropy values is modelled by exact real
  arithmetic (`ℝ`), and float ratios by exact rational arithmetic (`ℚ`).
-/

namespace PyForgee

/-! ## Protection manager: data model (`protection_manager.py`) -/

/-- `ProtectionLevel` enum (`protection_manager.py`, lines 38-43). -/
inductive ProtectionLevel where
  | basic
  | intermediate
  | advanced
  | maximum
deriving DecidableEq, Repr

/-- `ObfuscationMethod` enum (`protection_manager.py`, lines 46-52). -/
inductive ObfuscationMethod where
  | pyarmor
  | custom
  | bytecode
  | stringEncoding
  | controlFlow
deriving DecidableEq, Repr

/-- `ProtectionOptions.__post_init__` (`protection_manager.py`, lines 82-102):
when the explicit method list is empty, substitute the default list attached
to the protection level; otherwise keep the explicit list. -/
def protectionOptionsPostInit (level : ProtectionLevel)
    (methods : List ObfuscationMethod) : List ObfuscationMethod :=
  if methods = [] then
    match level with
    | .basic => [.bytecode]
    | .intermediate => [.custom, .stringEncoding]
    | .advanced => [.custom, .stringEncoding, .controlFlow]
    | .maximum => [.pyarmor, .custom, .bytecode, .stringEncoding, .controlFlow]
  else methods

/-- `ProtectionResult` dataclass (`protection_manager.py`, lines 105-114),
restricted to the fields the claims mention.  `protectedFiles` is the
`original -> protected` dict, as an insertion-ordered association list. -/
structure ProtectionResult where
  success : Bool
  protectedFiles : List (String × String) := []
  errorMessage : Option String := none
  protectionTime : ℚ := 0
  methodsApplied : List ObfuscationMethod := []
deriving DecidableEq, Repr

/-- Insertion of one key/value pair into a Python dict modelled as an
association list: an existing key keeps its position and gets the new value,
a fresh key is appended. -/
def dictInsert (d : List (String × String)) (k v : String) :
    List (String × String) :=
  if d.any (fun p => p.1 = k) then
    d.map (fun p => if p.1 = k then (k, v) else p)
  else d ++ [(k, v)]

/-- Python `dict.update`: insert every pair of `e` into `d`, left to right. -/
def dictUpdate (d e : List (String × String)) : List (String × String) :=
  e.foldl (fun acc p => dictInsert acc p.1 p.2) d

/-- Mutable state threaded through the `for method in options.methods` loop of
`ProtectionManager.protect_code` (`protection_manager.py`, lines 786-808):
`current_path`, `all_protected_files`, `all_methods`, `total_time`. -/
structure ProtectLoopState where
  currentPath : String
  allFiles : List (String × String)
  allMethods : List ObfuscationMethod
  totalTime : ℚ

/-- The `for method in options.methods` loop of `ProtectionManager.protect_code`
(`protection_manager.py`, lines 792-815).  `avail` is membership in
`self.available_protectors`; `run` is `protector.protect` of the backend for a
given method, at a given current path (a host-behaviour parameter).  Methods
not in the available set are skipped with no other effect; a failing backend
result is returned unchanged; after the loop a fresh success result is built
from the accumulated state. -/
def protectLoop (avail : ObfuscationMethod → Bool)
    (run : ObfuscationMethod → String → ProtectionResult) :
    List ObfuscationMethod → ProtectLoopState → ProtectionResult
  | [], st =>
      { success := true
        protectedFiles := st.allFiles
        errorMessage := none
        protectionTime := st.totalTime
        methodsApplied := st.allMethods }
  | m :: rest, st =>
      if avail m then
        let r := run m st.currentPath
        if r.success then
          let nextPath :=
            match r.protectedFiles with
            | [] => st.currentPath
            | (_, v) :: _ => v
          protectLoop avail run rest
            { currentPath := nextPath
              allFiles := dictUpdate st.allFiles r.protectedFiles
              allMethods := st.allMethods ++ r.methodsApplied
              totalTime := st.totalTime + r.protectionTime }
        else r
      else protectLoop avail run rest st

/-- `ProtectionManager.protect_code` (`protection_manager.py`, lines 767-822):
validate that the source exists, build the options (running
`ProtectionOptions.__post_init__` on the method list), then run the protection
loop starting from the source path with empty accumulators. -/
def protectCode (srcExists : Bool) (avail : ObfuscationMethod → Bool)
    (run : ObfuscationMethod → String → ProtectionResult)
    (level : ProtectionLevel) (methods : List ObfuscationMethod)
    (sourcePath : String) : ProtectionResult :=
  if srcExists then
    protectLoop avail run (protectionOptionsPostInit level methods)
      { currentPath := sourcePath, allFiles := [], allMethods := [], totalTime := 0 }
  else
    { success := false
      errorMessage := some ("Fichier/dossier non trouve: " ++ sourcePath) }

/-! ## Compression handler: data model (`compression_handler.py`) -/

/-- `CompressionMethod` enum (`compression_handler.py`, lines 33-40). -/
inductive CompressionMethod where
  | upx
  | lzma
  | brotli
  | gzip
  | custom
  | auto
deriving DecidableEq, Repr

/-- The `compression_ratio` computation of `CompressionResult.__post_init__`
(`compression_handler.py`, lines 86-91): when both sizes are positive the
ratio becomes `(original - compressed) / original`, otherwise the initial
field value (`0.0` by the dataclass default, and no caller in the repository
passes the field explicitly) is kept. -/
def compressionRatioPostInit (originalSize compressedSize : Int) (ratio0 : ℚ) : ℚ :=
  if 0 < originalSize ∧ 0 < compressedSize then
    ((originalSize : ℚ) - (compressedSize : ℚ)) / (originalSize : ℚ)
  else ratio0

/-- `CompressionResult` dataclass (`compression_handler.py`, lines 73-91),
restricted to the fields the claims mention. -/
structure CompressionResult where
  success : Bool
  originalSize : Int := 0
  compressedSize : Int := 0
  compressionRatio : ℚ := 0
  methodUsed : Option CompressionMethod := none
  outputPath : Option String := none
  errorMessage : Option String := none
deriving DecidableEq, Repr

/-- Constructing a `CompressionResult` with the dataclass defaults for the
fields not passed, then running `__post_init__`. -/
def mkCompressionResult (success : Bool) (originalSize compressedSize : Int)
    (methodUsed : Option CompressionMethod) (outputPath : Option String)
    (errorMessage : Option String) : CompressionResult :=
  { success := success
    originalSize := originalSize
    compressedSize := compressedSize
    compressionRatio := compressionRatioPostInit originalSize compressedSize 0
    methodUsed := methodUsed
    outputPath := outputPath
    errorMessage := errorMessage }

/-! ## UPX backend: in-place compression with backup (`compression_handler.py`) -/

/-- The filesystem state `UPXCompressor.compress` mutates: the bytes at the
artifact path (`file_path`) and the bytes at `file_path + ".backup"`, each
present or absent. -/
structure UpxFsState where
  artifact : Option (List Nat)
  backup : Option (List Nat)
deriving DecidableEq, Repr

/-- Behaviour of the spawned UPX subprocess (a host parameter): either the
process runs to completion with an exit code and captured stderr (modelled
after decoding), or spawning/communicating raises.  `fileAfter` is whatever
the subprocess left at the artifact path (UPX rewrites the file in place, so
a misbehaving run may leave arbitrary bytes there, or none). -/
inductive UpxSubprocOutcome where
  | exits (code : Int) (stderr : String) (fileAfter : Option (List Nat))
  | throws (msg : String) (fileAfter : Option (List Nat))
deriving DecidableEq, Repr

/-- `True` exactly when the compression subprocess fails: non-zero exit or a
raised exception (`compression_handler.py`, lines 312-341). -/
def upxSubprocFailed : UpxSubprocOutcome → Bool
  | .exits code _ _ => code ≠ 0
  | .throws _ _ => true

/-- Error text of a failed UPX run (`compression_handler.py`, line 320):
the decoded stderr, or a fixed message when stderr is empty. -/
def upxErrorMessage (stderr : String) : String :=
  if stderr = "" then "Erreur UPX inconnue" else stderr

/-- The rollback in the two failure branches of `UPXCompressor.compress`
(`compression_handler.py`, lines 313-318 and 329-334): when a backup was
requested and the backup file exists, move it back over the artifact. -/
def upxRestoreBackup (backupOriginal : Bool) (fs : UpxFsState) : UpxFsState :=
  if backupOriginal then
    match fs.backup with
    | some b => { artifact := some b, backup := none }
    | none => fs
  else fs

/-- The `finally` block of `UPXCompressor.compress` (`compression_handler.py`,
lines 343-349): delete the backup when a backup was requested and both the
backup and the artifact exist. -/
def upxCleanupBackup (backupOriginal : Bool) (fs : UpxFsState) : UpxFsState :=
  if backupOriginal ∧ fs.backup.isSome ∧ fs.artifact.isSome then
    { fs with backup := none }
  else fs

/-- `UPXCompressor.compress` (`compression_handler.py`, lines 216-349).
Control flow of the source: fail early when UPX is unavailable or the
artifact cannot be read; copy the artifact to `<artifact>.backup` when
`backup_original` is set; run the subprocess (which rewrites the artifact in
place); on exit code 0 re-read the artifact and return success (failing when
it vanished); on non-zero exit or a raised exception restore the backup and
return failure; in all cases run the `finally` cleanup of the backup.
Filesystem primitives (`copy2`, `move`, `remove`) are modelled as succeeding. -/
def upxCompress (upxAvailable : Bool) (backupOriginal : Bool)
    (sub : UpxSubprocOutcome) (fs : UpxFsState) :
    CompressionResult × UpxFsState :=
  if upxAvailable then
    match fs.artifact with
    | none =>
        (mkCompressionResult false 0 0 none none (some "Erreur lecture fichier"), fs)
    | some orig =>
        let originalSize : Int := orig.length
        let fs1 : UpxFsState :=
          if backupOriginal then { fs with backup := fs.artifact } else fs
        match sub with
        | .exits code stderr fileAfter =>
            let fs2 : UpxFsState := { fs1 with artifact := fileAfter }
            if code = 0 then
              match fileAfter with
              | some compressed =>
                  (mkCompressionResult true originalSize compressed.length
                      (some .upx) (some "file_path") none,
                    upxCleanupBackup backupOriginal fs2)
              | none =>
                  (mkCompressionResult false 0 0 none none
                      (some "Erreur post-compression"),
                    upxCleanupBackup backupOriginal fs2)
            else
              (mkCompressionResult false originalSize 0 none none
                  (some (upxErrorMessage stderr)),
                upxCleanupBackup backupOriginal (upxRestoreBackup backupOriginal fs2))
        | .throws msg fileAfter =>
            let fs2 : UpxFsState := { fs1 with artifact := fileAfter }
            (mkCompressionResult false originalSize 0 none none (some msg),
              upxCleanupBackup backupOriginal (upxRestoreBackup backupOriginal fs2))
  else
    (mkCompressionResult false 0 0 none none (some "UPX non disponible"), fs)

/-! ## Compiler engine: data model (`compiler_engine.py`) -/

/-- `CompilerType` enum (`compiler_engine.py`, lines 26-30). -/
inductive CompilerType where
  | pyinstaller
  | nuitka
  | cxFreeze
deriving DecidableEq, Repr

/-- The `value` strings of the `CompilerType` enum members. -/
def compilerName : CompilerType → String
  | .pyinstaller => "pyinstaller"
  | .nuitka => "nuitka"
  | .cxFreeze => "cx_freeze"

/-- `CompilationOptions` dataclass (`compiler_engine.py`, lines 33-70),
restricted to the fields the claims mention. -/
structure CompilationOptions where
  sourcePath : String
  outputPath : String
  outputName : Option String := none
  console : Bool := false
  optimize : Bool := true
  obfuscate : Bool := false
  encryptBytecode : Bool := false
  preferredCompiler : Option CompilerType := none
deriving DecidableEq, Repr

/-- `CompilationResult` dataclass (`compiler_engine.py`, lines 73-86),
restricted to the fields the claims mention. -/
structure CompilationResult where
  success : Bool
  outputPath : Option String := none
  errorMessage : Option String := none
  fileSize : Int := 0
  compilerUsed : Option CompilerType := none
deriving DecidableEq, Repr

/-- `PyInstallerBackend.get_score` (`compiler_engine.py`, lines 266-280). -/
def pyinstallerScore (o : CompilationOptions) : Int :=
  min 100 (max 0 (70 + 15 + (if o.optimize then -5 else 0) + 10))

/-- `NuitkaBackend.get_score` (`compiler_engine.py`, lines 430-445). -/
def nuitkaScore (o : CompilationOptions) : Int :=
  min 100 (max 0 (85 + (if o.optimize then 10 else 0)
    + (if o.obfuscate ∨ o.encryptBytecode then 5 else 0) - 5))

/-- `CxFreezeBackend.get_score` (`compiler_engine.py`, lines 603-614). -/
def cxFreezeScore (o : CompilationOptions) : Int :=
  min 100 (max 0 (60 + 5 + (if o.obfuscate ∨ o.encryptBytecode then -10 else 0)))

/-- Dispatch of `backend.get_score` over the three compiler backends. -/
def compilerScore (o : CompilationOptions) : CompilerType → Int
  | .pyinstaller => pyinstallerScore o
  | .nuitka => nuitkaScore o
  | .cxFreeze => cxFreezeScore o

/-- Insertion order of the `self.compilers` dict of `CompilerEngine.__init__`
(`compiler_engine.py`, lines 625-629); `self.available_compilers` iterates in
this order, filtered by availability. -/
def compilerRegistry : List CompilerType := [.pyinstaller, .nuitka, .cxFreeze]

/-- The Python built-in `max(iterable, key=f)` over a non-empty iterable
`x :: xs`: left fold that replaces the current best only on a strictly
greater key, so the first element attaining the maximum wins. -/
def pyMaxBy {α : Type} (f : α → Int) (x : α) (xs : List α) : α :=
  xs.foldl (fun b y => if f b < f y then y else b) x

/-- The scoring branch of `CompilerEngine.select_best_compiler`
(`compiler_engine.py`, lines 656-671): score every available compiler and take
`max(scores.keys(), key=...)`; `none` models the `RuntimeError` raised when no
compiler is available. -/
def selectAutoCompiler (avail : CompilerType → Bool) (o : CompilationOptions) :
    Option CompilerType :=
  match compilerRegistry.filter (fun c => avail c) with
  | [] => none
  | x :: xs => some (pyMaxBy (compilerScore o) x xs)

/-- `CompilerEngine.select_best_compiler` (`compiler_engine.py`, lines
648-671): an explicitly preferred compiler that is available is returned
directly; otherwise the scoring branch runs. -/
def selectBestCompiler (avail : CompilerType → Bool) (o : CompilationOptions) :
    Option CompilerType :=
  match o.preferredCompiler with
  | some p => if avail p then some p else selectAutoCompiler avail o
  | none => selectAutoCompiler avail o

/-- `os.path.join` for the plain relative path fragments the locators build. -/
def osJoin (a b : String) : String := a ++ "/" ++ b

/-- Split a character list at every occurrence of the separator `c`
(the empty list yields one empty part, as Python `str.split` with a
separator does). -/
def splitOnChar (c : Char) : List Char → List (List Char)
  | [] => [[]]
  | x :: xs =>
      let r := splitOnChar c xs
      if x = c then [] :: r
      else
        match r with
        | [] => [[x]]
        | y :: ys => (x :: y) :: ys

/-- Path components of `p`, with Windows separators normalised to `/`. -/
def pathParts (p : String) : List (List Char) :=
  splitOnChar '/' (p.data.map (fun ch => if ch = '\\' then '/' else ch))

/-- Final path component (`Path(p).name`). -/
def pathBaseName (p : String) : String :=
  String.mk ((pathParts p).getLastD [])

/-- `Path(p).stem`: the final component without its last extension (modelled
for ordinary file names, i.e. not for dotfiles without an extension). -/
def pathStem (p : String) : String :=
  match splitOnChar '.' (pathBaseName p).data with
  | [] => pathBaseName p
  | [x] => String.mk x
  | parts => String.mk (List.intercalate ['.'] parts.dropLast)

/-- `Path(p).parent` of a relative path. -/
def pathParent (p : String) : String :=
  match (pathParts p).dropLast with
  | [] => "."
  | ps => String.mk (List.intercalate ['/'] ps)

/-- Python `str.endswith(suffix)`. -/
def pyEndsWith (p suffix : String) : Bool :=
  suffix.data.isSuffixOf p.data

/-- Candidate artifact paths of `PyInstallerBackend._find_output_file`
(`compiler_engine.py`, lines 249-264), in order of preference. -/
def pyinstallerCandidates (o : CompilationOptions) : List String :=
  let baseName := o.outputName.getD (pathStem o.sourcePath)
  [osJoin o.outputPath (baseName ++ ".exe"),
   osJoin o.outputPath baseName,
   osJoin "dist" (baseName ++ ".exe"),
   osJoin "dist" baseName]

/-- Outcome of a spawned compiler subprocess (a host parameter): a normal
exit with an exit code and captured stderr (modelled after decoding, so an
empty byte stderr decodes to the empty string), or a raised exception whose
text is `msg`. -/
inductive CompileSubprocOutcome where
  | exits (code : Int) (stderr : String)
  | throws (msg : String)
deriving DecidableEq, Repr

/-- `PyInstallerBackend.compile` (`compiler_engine.py`, lines 149-247).
`fsExists` and `getsize` stand for `os.path.exists` and `os.path.getsize`.
On exit code 0 the locator returns the first existing candidate path (success)
or nothing (`Fichier de sortie introuvable`); on a non-zero exit the error
text is the decoded stderr; a raised exception is caught and its text
returned. -/
def pyinstallerCompile (fsExists : String → Bool) (getsize : String → Int)
    (sub : CompileSubprocOutcome) (o : CompilationOptions) : CompilationResult :=
  match sub with
  | .throws msg =>
      { success := false, errorMessage := some msg,
        compilerUsed := some .pyinstaller }
  | .exits code stderr =>
      if code = 0 then
        match (pyinstallerCandidates o).find? fsExists with
        | some p =>
            { success := true, outputPath := some p, fileSize := getsize p,
              compilerUsed := some .pyinstaller }
        | none =>
            { success := false,
              errorMessage := some "Fichier de sortie introuvable",
              compilerUsed := some .pyinstaller }
      else
        { success := false, errorMessage := some stderr,
          compilerUsed := some .pyinstaller }

/-- The attributes the class body of `NuitkaBackend` defines
(`compiler_engine.py`, lines 283-445).  The `def _find_output_file` at lines
412-428 is indented inside the body of `compile` (after both `return`
statements, hence also unreachable as a local definition), so it is NOT a
class attribute. -/
def nuitkaBackendClassAttrs : List String :=
  ["__init__", "is_available", "get_version", "compile", "get_score"]

/-- The dead nested `_find_output_file` of `NuitkaBackend.compile`
(`compiler_engine.py`, lines 412-428), transcribed for reference: candidate
artifact paths under the requested output directory, first existing one
returned. -/
def nuitkaDeadFindOutputFile (fsExists : String → Bool)
    (o : CompilationOptions) : Option String :=
  let baseName := o.outputName.getD (pathStem o.sourcePath)
  let distDir :=
    if pyEndsWith o.outputPath ".exe" then pathParent o.outputPath else o.outputPath
  [osJoin distDir (baseName ++ ".exe"),
   osJoin (osJoin distDir baseName) (baseName ++ ".exe"),
   osJoin distDir baseName,
   osJoin "dist" (baseName ++ ".exe"),
   osJoin (osJoin "dist" baseName) (baseName ++ ".exe")].find? fsExists

/-- Text of the `AttributeError` raised when `self._find_output_file` is
looked up on a `NuitkaBackend` instance (Python quotes the two names in the
real message; the quotes are omitted here). -/
def nuitkaAttrError : String :=
  "AttributeError: NuitkaBackend object has no attribute _find_output_file"

/-- `NuitkaBackend.compile` (`compiler_engine.py`, lines 315-410).  On exit
code 0 the source calls `self._find_output_file(options)`; since
`_find_output_file` is not among the class attributes (it is a dead nested
function of `compile` itself), the lookup raises `AttributeError`, which the
enclosing `except Exception` turns into a failure result. -/
def nuitkaCompile (fsExists : String → Bool) (getsize : String → Int)
    (sub : CompileSubprocOutcome) (o : CompilationOptions) : CompilationResult :=
  match sub with
  | .throws msg =>
      { success := false, errorMessage := some msg, compilerUsed := some .nuitka }
  | .exits code stderr =>
      if code = 0 then
        if "_find_output_file" ∈ nuitkaBackendClassAttrs then
          match nuitkaDeadFindOutputFile fsExists o with
          | some p =>
              { success := true, outputPath := some p, fileSize := getsize p,
                compilerUsed := some .nuitka }
          | none =>
              { success := false,
                errorMessage := some "Fichier de sortie introuvable",
                compilerUsed := some .nuitka }
        else
          { success := false, errorMessage := some nuitkaAttrError,
            compilerUsed := some .nuitka }
      else
        { success := false, errorMessage := some stderr,
          compilerUsed := some .nuitka }

/-- What `await backend.compile(options)` does, as seen by
`CompilerEngine.compile`: the backend returns a result, or the call raises. -/
inductive BackendOutcome where
  | returns (r : CompilationResult)
  | throws (msg : String)
deriving DecidableEq, Repr

/-- `CompilerEngine.compile` (`compiler_engine.py`, lines 673-708): validate
that the source exists; create the output directory (`os.makedirs` with
`exist_ok=True`, modelled as succeeding); select the best compiler (a raised
`RuntimeError` when none is available is caught by the `except Exception`
handler); run the backend, catching anything it raises. -/
def compilerEngineCompile (srcExists : Bool) (avail : CompilerType → Bool)
    (backendRun : CompilerType → BackendOutcome) (o : CompilationOptions) :
    CompilationResult :=
  if srcExists then
    match selectBestCompiler avail o with
    | none =>
        { success := false, errorMessage := some "Aucun compilateur disponible" }
    | some ct =>
        match backendRun ct with
        | .returns r => r
        | .throws msg => { success := false, errorMessage := some msg }
  else
    { success := false,
      errorMessage := some ("Fichier source introuvable: " ++ o.sourcePath) }

/-! ## Compression handler: scoring and selection (`compression_handler.py`) -/

/-- The file information dict `CompressionBackend._get_file_info` builds
(`compression_handler.py`, lines 121-133): size, executable bit, lowercased
extension and detected type string (`pe_executable`, `elf_executable`,
`mach_executable` or `unknown`).  A stat failure returns the empty dict,
whose `.get` defaults coincide with `size = 0`, `isExecutable = false`,
`extension = ""`, `fileType = "unknown"`. -/
structure FileInfo where
  size : Int := 0
  isExecutable : Bool := false
  extension : String := ""
  fileType : String := "unknown"
deriving DecidableEq, Repr

/-- `UPXCompressor.get_score` (`compression_handler.py`, lines 351-374). -/
def upxScore (fi : FileInfo) : Int :=
  min 100 (max 0 (50
    + (if fi.fileType = "pe_executable" then 40
       else if fi.isExecutable then 30 else 0)
    + (if 10 * 1024 * 1024 < fi.size then 10
       else if 1024 * 1024 < fi.size then 5 else 0)
    + (if fi.size < 100 * 1024 then -20 else 0)))

/-- `LZMACompressor.get_score` (`compression_handler.py`, lines 441-456). -/
def lzmaScore (fi : FileInfo) : Int :=
  min 100 (max 0 (60
    + (if 1024 * 1024 < fi.size then 20 else 0)
    + (if fi.fileType = "pe_executable" then -30 else 0)))

/-- `BrotliCompressor.get_score` (`compression_handler.py`, lines 529-544). -/
def brotliScore (fi : FileInfo) : Int :=
  min 100 (max 0 (65
    + (if fi.extension ∈ [".txt", ".js", ".css", ".html", ".json", ".xml"]
       then 25 else 0)
    + (if fi.fileType = "pe_executable" then -40 else 0)))

/-- `CustomCompressor.get_score` (`compression_handler.py`, lines 661-675). -/
def customScore (fi : FileInfo) : Int :=
  min 100 (max 0 (70 + 15 + (if 500 * 1024 < fi.size then 10 else 0)))

/-- Dispatch of `compressor.get_score` over the four registered compression
backends (`gzip` and `auto` are never registered and never scored). -/
def compressorScore (fi : FileInfo) : CompressionMethod → Int
  | .upx => upxScore fi
  | .lzma => lzmaScore fi
  | .brotli => brotliScore fi
  | .custom => customScore fi
  | .gzip => 0
  | .auto => 0

/-- Insertion order of the `self.compressors` dict of
`CompressionHandler.__init__` (`compression_handler.py`, lines 685-690). -/
def compressorRegistry : List CompressionMethod := [.upx, .lzma, .brotli, .custom]

/-- A concrete file-info record: a 2 MiB PE executable. -/
def peFileInfo : FileInfo :=
  { size := 2 * 1024 * 1024, isExecutable := true,
    extension := ".exe", fileType := "pe_executable" }

/-! ## The `base64` pair used by the string-encoding obfuscation pass

`CustomObfuscator._obfuscate_strings` rewrites a string literal into
`base64.b64decode("<b64encode of the literal>").decode()`.  The standard
`base64` encoder/decoder pair is modelled over byte lists (a Python `str` is
represented by its UTF-8 byte sequence). -/

/-- The base64 alphabet: ASCII code of the character for a 6-bit value. -/
def b64Char (n : Nat) : Nat :=
  if n < 26 then 65 + n
  else if n < 52 then 97 + (n - 26)
  else if n < 62 then 48 + (n - 52)
  else if n = 62 then 43
  else 47

/-- Inverse alphabet lookup: the 6-bit value of an ASCII code, when it is a
base64 alphabet character. -/
def b64CharInv (c : Nat) : Option Nat :=
  if 65 ≤ c ∧ c ≤ 90 then some (c - 65)
  else if 97 ≤ c ∧ c ≤ 122 then some (26 + (c - 97))
  else if 48 ≤ c ∧ c ≤ 57 then some (52 + (c - 48))
  else if c = 43 then some 62
  else if c = 47 then some 63
  else none

/-- `base64.b64encode`: group the input bytes in threes into four 6-bit
values mapped through the alphabet; a trailing group of two or one byte is
padded with one or two `=` characters (ASCII 61). -/
def b64EncodeBytes : List Nat → List Nat
  | a :: b :: c :: rest =>
      b64Char (a / 4) :: b64Char ((a % 4) * 16 + b / 16)
        :: b64Char ((b % 16) * 4 + c / 64) :: b64Char (c % 64)
        :: b64EncodeBytes rest
  | [a, b] =>
      [b64Char (a / 4), b64Char ((a % 4) * 16 + b / 16), b64Char ((b % 16) * 4), 61]
  | [a] => [b64Char (a / 4), b64Char ((a % 4) * 16), 61, 61]
  | [] => []

/-- `base64.b64decode` on an ASCII string: process four characters at a time,
accepting `=` padding only at the very end; `none` models the `binascii`
error on malformed input (an input whose length is not a multiple of four, a
character outside the alphabet, or interior padding). -/
def b64DecodeBytes : List Nat → Option (List Nat)
  | [] => some []
  | [_] => none
  | [_, _] => none
  | [_, _, _] => none
  | c1 :: c2 :: c3 :: c4 :: rest =>
      match b64CharInv c1, b64CharInv c2 with
      | some s1, some s2 =>
          if c3 = 61 then
            if c4 = 61 ∧ rest = [] then some [s1 * 4 + s2 / 16] else none
          else
            match b64CharInv c3 with
            | some s3 =>
                if c4 = 61 then
                  if rest = [] then
                    some [s1 * 4 + s2 / 16, (s2 % 16) * 16 + s3 / 4]
                  else none
                else
                  match b64CharInv c4 with
                  | some s4 =>
                      match b64DecodeBytes rest with
                      | some ds =>
                          some ((s1 * 4 + s2 / 16) :: ((s2 % 16) * 16 + s3 / 4)
                            :: ((s3 % 4) * 64 + s4) :: ds)
                      | none => none
                  | none => none
            | none => none
      | _, _ => none

/-! ## String-encoding obfuscation pass (`protection_manager.py`,
`CustomObfuscator._obfuscate_strings`)

A fragment of the Python expression AST, rich enough for the pass: string
constants (as UTF-8 byte sequences), non-string constants, the
`base64.b64decode(e).decode()` call shape the pass emits, and arbitrary other
nodes with a kind tag and child list.  `ast.NodeTransformer` recurses into
the children of every node it has no visitor for — in particular into the
arguments of an emitted decode call on a second pass — but does not revisit
the node a visitor returns. -/

mutual
inductive PyExpr where
  | constStr : List Nat → PyExpr
  | constInt : Int → PyExpr
  | b64DecodeCall : PyExpr → PyExpr
  | node : Nat → PyExprList → PyExpr
deriving DecidableEq, Repr
inductive PyExprList where
  | nil : PyExprList
  | cons : PyExpr → PyExprList → PyExprList
deriving DecidableEq, Repr
end

mutual
/-- The `StringObfuscator` transformer of `CustomObfuscator._obfuscate_strings`
(`protection_manager.py`, lines 434-462): every string constant longer than 3
(characters; bytes here — the thresholds agree on ASCII data and the length
threshold only selects which constants are rewritten) is replaced by
`base64.b64decode("<encoded>").decode()`; the replacement node is not
revisited, every other node is traversed. -/
def obfuscateStrings : PyExpr → PyExpr
  | .constStr s =>
      if 3 < s.length then .b64DecodeCall (.constStr (b64EncodeBytes s))
      else .constStr s
  | .constInt n => .constInt n
  | .b64DecodeCall a => .b64DecodeCall (obfuscateStrings a)
  | .node k cs => .node k (obfuscateStringsList cs)
def obfuscateStringsList : PyExprList → PyExprList
  | .nil => .nil
  | .cons e es => .cons (obfuscateStrings e) (obfuscateStringsList es)
end

mutual
/-- Python runtime values for the embedded fragment: strings, integers, and
an opaque constructor interpreting every other node kind freely (so equality
of denotations is program equivalence with respect to the base64 decoding
semantics and nothing else). -/
inductive PyVal where
  | str : List Nat → PyVal
  | int : Int → PyVal
  | op : Nat → PyValList → PyVal
deriving DecidableEq, Repr
inductive PyValList where
  | nil : PyValList
  | cons : PyVal → PyValList → PyValList
deriving DecidableEq, Repr
end

mutual
/-- Evaluation: `base64.b64decode(e).decode()` evaluates its argument to a
string, base64-decodes it (a malformed argument raises, hence `none`), and
every other node denotes its kind applied to its children's values. -/
def evalExpr : PyExpr → Option PyVal
  | .constStr s => some (.str s)
  | .constInt n => some (.int n)
  | .b64DecodeCall a =>
      match evalExpr a with
      | some (.str s) =>
          match b64DecodeBytes s with
          | some d => some (.str d)
          | none => none
      | _ => none
  | .node k cs =>
      match evalList cs with
      | some vs => some (.op k vs)
      | none => none
def evalList : PyExprList → Option PyValList
  | .nil => some .nil
  | .cons e es =>
      match evalExpr e, evalList es with
      | some v, some vs => some (.cons v vs)
      | _, _ => none
end

mutual
/-- Well-formedness: every byte of every string constant is an actual byte
value (below 256). -/
def wfExpr : PyExpr → Bool
  | .constStr s => s.all (fun b => b < 256)
  | .constInt _ => true
  | .b64DecodeCall a => wfExpr a
  | .node _ cs => wfList cs
def wfList : PyExprList → Bool
  | .nil => true
  | .cons e es => wfExpr e && wfList es
end

/-! ## Adaptive compressor (`compression_handler.py`, `CustomCompressor`)

Python float arithmetic is modelled by exact arithmetic: the entropy is a
real number, the repetition ratio a rational. -/

/-- The summand of the Shannon entropy at byte value `b`:
`-(p * log2 p)` with `p = count(b) / len(data)`. -/
noncomputable def entropyTerm (data : List Nat) (b : Nat) : ℝ :=
  -(((data.count b : ℝ) / (data.length : ℝ))
    * Real.logb 2 ((data.count b : ℝ) / (data.length : ℝ)))

/-- `CustomCompressor._calculate_entropy` (`compression_handler.py`, lines
623-643): build the byte-frequency dict (its keys are the distinct bytes of
`data`, in first-occurrence order, each with a positive count) and subtract
`p * log2 p` for every entry. -/
noncomputable def calculateEntropy (data : List Nat) : ℝ :=
  if data = [] then 0 else ((data.dedup).map (entropyTerm data)).sum

/-- The Shannon entropy as the specification states it: a sum over the set of
byte values occurring in the data. -/
noncomputable def shannonEntropy (data : List Nat) : ℝ :=
  ∑ b ∈ data.toFinset, entropyTerm data b

/-- The counting loop of `CustomCompressor._calculate_repetition_ratio`
(`compression_handler.py`, lines 654-657): the number of positions `i ≥ 1`
with `sample[i] = sample[i-1]`. -/
def countAdjacentRepeats : List Nat → Nat
  | a :: b :: rest => (if a = b then 1 else 0) + countAdjacentRepeats (b :: rest)
  | _ => 0

/-- `CustomCompressor._calculate_repetition_ratio` (`compression_handler.py`,
lines 645-659): `0.0` for inputs shorter than 100 bytes; otherwise the
adjacent-repeat count over the first `min(1000, len(data))` bytes divided by
`sample_size - 1`. -/
def calculateRepetitionRatio (data : List Nat) : ℚ :=
  if data.length < 100 then 0
  else
    ((countAdjacentRepeats (data.take (min 1000 data.length)) : ℚ))
      / (((min 1000 data.length : Nat) : ℚ) - 1)

/-- The byte-repetition ratio as the specification states it, with the
adjacent-repeat count written as a count over consecutive pairs. -/
def adjacentRepeatRatio (data : List Nat) : ℚ :=
  if data.length < 100 then 0
  else
    let sample := data.take (min 1000 data.length)
    (((sample.zip sample.tail).countP (fun p => decide (p.1 = p.2)) : ℚ))
      / (((min 1000 data.length : Nat) : ℚ) - 1)

open Classical in
/-- `CustomCompressor._optimal_compress` (`compression_handler.py`, lines
605-621): LZMA at preset `lzma_preset or 9` when entropy `< 6.0` and the
repetition ratio exceeds `0.3`; otherwise Brotli (quality
`brotli_quality or 11`) when the library is present and the input is under
1 MiB; otherwise LZMA at preset `lzma_preset or 6`.  The external `lzma` and
`brotli` library compressors enter as function parameters (preset first). -/
noncomputable def optimalCompress (brotliAvailable : Bool)
    (lzmaCompress brotliCompress : Nat → List Nat → List Nat)
    (lzmaPreset brotliQuality : Nat) (data : List Nat) : List Nat :=
  if calculateEntropy data < 6
      ∧ (3 : ℚ) / 10 < calculateRepetitionRatio data then
    lzmaCompress (if lzmaPreset = 0 then 9 else lzmaPreset) data
  else if brotliAvailable = true ∧ data.length < 1024 * 1024 then
    brotliCompress (if brotliQuality = 0 then 11 else brotliQuality) data
  else
    lzmaCompress (if lzmaPreset = 0 then 6 else lzmaPreset) data

/-- `struct.pack("<I", n)`: the 4 little-endian bytes of `n` (the Python call
raises for `n ≥ 2^32`; the framing theorem assumes `n < 2^32`). -/
def packLE32 (n : Nat) : List Nat :=
  [n % 256, n / 256 % 256, n / 65536 % 256, n / 16777216 % 256]

/-- The unsigned little-endian value of a 4-byte list. -/
def le32Value : List Nat → Nat
  | [b0, b1, b2, b3] => b0 + 256 * b1 + 65536 * b2 + 16777216 * b3
  | _ => 0

/-- The bytes `CustomCompressor.compress` writes to `<input>.pfc`
(`compression_handler.py`, lines 579-585): the magic `b"PFC\x01"`
(bytes 80, 70, 67, 1), the original size packed as `<I`, then the
compressed payload. -/
noncomputable def customCompressOutput (brotliAvailable : Bool)
    (lzmaCompress brotliCompress : Nat → List Nat → List Nat)
    (lzmaPreset brotliQuality : Nat) (data : List Nat) : List Nat :=
  [80, 70, 67, 1] ++ packLE32 data.length
    ++ optimalCompress brotliAvailable lzmaCompress brotliCompress
        lzmaPreset brotliQuality data

/-! ## Dependency analyzer (`dependency_analyzer.py`) -/

/-- The key set of the graph `DependencyAnalyzer._classify_dependencies`
returns (`dependency_analyzer.py`, lines 285-300): the union of the VALUE
sets of the merged `module -> imported modules` map (`all_modules`), filtered
by the stdlib rule — the keys (parents) of the merged map are not added.
`isBuiltin` models the host lookup of `_get_module_info` (membership in
`sys.builtin_module_names` or the stdlib directory listing). -/
def classifyKeys (isBuiltin : String → Bool) (includeStdlib : Bool)
    (dependencies : List (String × List String)) : List String :=
  (((dependencies.map Prod.snd).flatten).dedup).filter
    (fun m => includeStdlib || !isBuiltin m)

/-- The `required_by` set a node `m` of the classified graph ends up with
(`dependency_analyzer.py`, lines 302-306): every parent whose dependency set
contains `m`. -/
def requiredBy (dependencies : List (String × List String)) (m : String) :
    List String :=
  (dependencies.filter (fun pd => m ∈ pd.2)).map Prod.fst

/-- `DependencyAnalyzer._classify_dependencies` (`dependency_analyzer.py`,
lines 281-308), projected to the `name -> required_by` part of the graph the
claim C3 is about. -/
def classifyDependencies (isBuiltin : String → Bool) (includeStdlib : Bool)
    (dependencies : List (String × List String)) :
    List (String × List String) :=
  (classifyKeys isBuiltin includeStdlib dependencies).map
    (fun m => (m, requiredBy dependencies m))

/-- `CompressionHandler.select_best_compressor` (`compression_handler.py`,
lines 709-733): a specifically requested available method wins directly;
otherwise score the available compressors and take `max(scores.keys(),
key=...)`; `none` models the `RuntimeError` raised when none is available. -/
def selectBestCompressor (avail : CompressionMethod → Bool)
    (method : CompressionMethod) (fi : FileInfo) : Option CompressionMethod :=
  let available := compressorRegistry.filter (fun m => avail m)
  if method ≠ .auto ∧ method ∈ available then some method
  else
    match available with
    | [] => none
    | x :: xs => some (pyMaxBy (compressorScore fi) x xs)

/-- What `await compressor.compress(exe_path, options)` does, as seen by
`CompressionHandler.compress_executable`: the backend returns a result
(every registered backend wraps its body in `try/except` and returns a
failure result on an internal exception), or the call itself raises. -/
inductive CompressorOutcome where
  | returns (r : CompressionResult)
  | throws (msg : String)
deriving DecidableEq, Repr

/-- `CompressionHandler.compress_executable` (`compression_handler.py`, lines
735-777): validate that the file exists (failure with `Fichier non trouve:
<path>` otherwise); build the options; select the best compressor — the
`RuntimeError` raised when none is available is caught by the
`except Exception` handler and returned as `str(e)` — then run the selected
backend, catching anything the call raises. -/
def compressExecutable (exePath : String) (exeExists : Bool)
    (avail : CompressionMethod → Bool) (method : CompressionMethod)
    (fi : FileInfo) (backendRun : CompressionMethod → CompressorOutcome) :
    CompressionResult :=
  if exeExists then
    match selectBestCompressor avail method fi with
    | none =>
        mkCompressionResult false 0 0 none none
          (some "Aucun compresseur disponible")
    | some m =>
        match backendRun m with
        | .returns r => r
        | .throws msg => mkCompressionResult false 0 0 none none (some msg)
  else
    mkCompressionResult false 0 0 none none
      (some ("Fichier non trouve: " ++ exePath))

end PyForgee

namespace PyForgee

/-! ## Theorems for C7 and C10 -/

/-- C7: for every protection level, when the job gives no explicit method
list, the default backend list is exactly: basic -> {bytecode};
intermediate -> {self-obfuscator, string-encode}; advanced ->
{self-obfuscator, string-encode, control-flow}; maximum -> {external,
self-obfuscator, bytecode, string-encode, control-flow}; and a non-empty
explicit method list is used unchanged, overriding the level map. -/
theorem protection_level_default_methods :
    protectionOptionsPostInit .basic [] = [.bytecode]
    ∧ protectionOptionsPostInit .intermediate [] = [.custom, .stringEncoding]
    ∧ protectionOptionsPostInit .advanced []
        = [.custom, .stringEncoding, .controlFlow]
    ∧ protectionOptionsPostInit .maximum []
        = [.pyarmor, .custom, .bytecode, .stringEncoding, .controlFlow]
    ∧ ∀ (level : ProtectionLevel) (ms : List ObfuscationMethod),
        ms ≠ [] → protectionOptionsPostInit level ms = ms := by
  refine ⟨rfl, rfl, rfl, rfl, ?_⟩
  intro level ms h
  simp [protectionOptionsPostInit, h]

/-- Witness for C7: a concrete non-empty explicit method list overrides the
`maximum` level map. -/
theorem protection_level_default_methods_witness :
    protectionOptionsPostInit .maximum [.bytecode] = [.bytecode] :=
  protection_level_default_methods.2.2.2.2 .maximum [.bytecode] (by decide)

/-- Helper for C10: the protection loop ignores unavailable methods — running
it on a method list is the same as running it on the sublist of available
methods. -/
theorem protectLoop_filter_avail (avail : ObfuscationMethod → Bool)
    (run : ObfuscationMethod → String → ProtectionResult) :
    ∀ (ms : List ObfuscationMethod) (st : ProtectLoopState),
      protectLoop avail run ms st
        = protectLoop avail run (ms.filter (fun m => avail m)) st := by
  intro ms
  induction ms with
  | nil => intro st; rfl
  | cons m rest ih =>
      intro st
      by_cases h : avail m
      · rw [List.filter_cons_of_pos (by simp [h])]
        simp only [protectLoop, h, if_true]
        by_cases hs : (run m st.currentPath).success
        · simp only [hs, if_true]; exact ih _
        · simp [hs]
      · rw [List.filter_cons_of_neg (by simp [h])]
        simp only [protectLoop, h, if_false]
        exact ih st

/-- C10: `ProtectionManager.protect_code` applies only methods present in the
available-protector set, silently skipping each requested method that is
unavailable; and when none of the effective (post-`__post_init__`) methods is
available it returns `success = true` with an empty protected-files map and no
error, rather than a no-tool-available failure. -/
theorem protect_code_skips_unavailable
    (avail : ObfuscationMethod → Bool)
    (run : ObfuscationMethod → String → ProtectionResult)
    (level : ProtectionLevel) (methods : List ObfuscationMethod)
    (sourcePath : String) :
    (∀ st, protectLoop avail run (protectionOptionsPostInit level methods) st
        = protectLoop avail run
            ((protectionOptionsPostInit level methods).filter (fun m => avail m)) st)
    ∧ ((∀ m ∈ protectionOptionsPostInit level methods, avail m = false) →
        protectCode true avail run level methods sourcePath
          = { success := true
              protectedFiles := []
              errorMessage := none
              protectionTime := 0
              methodsApplied := [] }) := by
  constructor
  · intro st; exact protectLoop_filter_avail avail run _ st
  · intro hnone
    have hfilter :
        (protectionOptionsPostInit level methods).filter (fun m => avail m) = [] := by
      rw [List.filter_eq_nil_iff]
      intro m hm
      simp [hnone m hm]
    unfold protectCode
    rw [if_pos rfl, protectLoop_filter_avail, hfilter]
    rfl

/-- Witness for C10: with no protector available, a concrete `protect_code`
call succeeds with an empty protected-files map and no error. -/
theorem protect_code_skips_unavailable_witness :
    protectCode true (fun _ => false)
        (fun _ _ => { success := false, errorMessage := some "unused" })
        .maximum [] "app.py"
      = { success := true
          protectedFiles := []
          errorMessage := none
          protectionTime := 0
          methodsApplied := [] } :=
  (protect_code_skips_unavailable (fun _ => false)
      (fun _ _ => { success := false, errorMessage := some "unused" })
      .maximum [] "app.py").2 (by intro m _; rfl)

/-! ## Theorems for C9 and C1 -/

/-- C9: for every constructed compression stage result (constructed as in the
repository, i.e. with the `compression_ratio` field left at its `0.0`
default), when both the original size and the compressed size are positive
the `compression_ratio` field satisfies `ratio * original = original -
compressed` with `original ≠ 0` (so the division `(original - compressed) /
original` is a genuine division by a non-zero number); otherwise the field
equals `0.0` and no division happens. -/
theorem compression_ratio_post_init (o c : Int) :
    (0 < o → 0 < c →
      (o : ℚ) ≠ 0
        ∧ compressionRatioPostInit o c 0 * (o : ℚ) = (o : ℚ) - (c : ℚ))
    ∧ (¬ (0 < o ∧ 0 < c) → compressionRatioPostInit o c 0 = 0) := by
  constructor
  · intro ho hc
    have hne : (o : ℚ) ≠ 0 := by
      exact_mod_cast Int.ne_of_gt ho
    refine ⟨hne, ?_⟩
    simp only [compressionRatioPostInit, if_pos (And.intro ho hc)]
    field_simp
  · intro h
    simp only [compressionRatioPostInit, if_neg h]

/-- Witness for C9 at original size 4, compressed size 1. -/
theorem compression_ratio_post_init_witness :
    ((4 : Int) : ℚ) ≠ 0
      ∧ compressionRatioPostInit 4 1 0 * ((4 : Int) : ℚ)
          = ((4 : Int) : ℚ) - ((1 : Int) : ℚ) :=
  (compression_ratio_post_init 4 1).1 (by decide) (by decide)

/-- C1: for every artifact content and every UPX compression run with
`backup_original = true`, starting from a state with the artifact present and
no stale backup file: if the compression subprocess fails (non-zero exit or
raised exception), the artifact bytes after the call equal the bytes before
and no `<artifact>.backup` file remains; and whenever the call returns a
success result, no `<artifact>.backup` file remains either. -/
theorem upx_compress_backup_atomicity (upxAvailable : Bool) (orig : List Nat)
    (sub : UpxSubprocOutcome) :
    (upxSubprocFailed sub = true →
      (upxCompress upxAvailable true sub
          { artifact := some orig, backup := none }).2.artifact = some orig
      ∧ (upxCompress upxAvailable true sub
          { artifact := some orig, backup := none }).2.backup = none)
    ∧ ((upxCompress upxAvailable true sub
          { artifact := some orig, backup := none }).1.success = true →
        (upxCompress upxAvailable true sub
          { artifact := some orig, backup := none }).2.backup = none) := by
  cases upxAvailable with
  | false =>
      refine ⟨fun _ => ⟨rfl, rfl⟩, fun hs => ?_⟩
      simp [upxCompress, mkCompressionResult] at hs
  | true =>
      cases sub with
      | throws msg fileAfter =>
          refine ⟨fun _ => ?_, fun hs => ?_⟩
          · simp [upxCompress, upxRestoreBackup, upxCleanupBackup]
          · simp [upxCompress, mkCompressionResult] at hs
      | exits code stderr fileAfter =>
          by_cases hc : code = 0
          · subst hc
            refine ⟨fun hf => ?_, fun hs => ?_⟩
            · simp [upxSubprocFailed] at hf
            · cases fileAfter with
              | some compressed =>
                  simp [upxCompress, upxCleanupBackup]
              | none =>
                  exfalso
                  simp [upxCompress, mkCompressionResult] at hs
          · refine ⟨fun _ => ?_, fun hs => ?_⟩
            · constructor <;>
                simp [upxCompress, hc, upxRestoreBackup, upxCleanupBackup]
            · exfalso
              simp [upxCompress, hc, mkCompressionResult] at hs

/-- Witness for C1: a concrete failing run (exit code 1, the subprocess left
garbage in the artifact) rolls the artifact back to its original bytes and
leaves no backup file. -/
theorem upx_compress_backup_atomicity_witness :
    (upxCompress true true (.exits 1 "" (some [9, 9]))
        { artifact := some [1, 2, 3], backup := none }).2.artifact = some [1, 2, 3]
    ∧ (upxCompress true true (.exits 1 "" (some [9, 9]))
        { artifact := some [1, 2, 3], backup := none }).2.backup = none :=
  (upx_compress_backup_atomicity true [1, 2, 3] (.exits 1 "" (some [9, 9]))).1
    (by decide)

/-! ## Properties of the Python `max(iterable, key=f)` fold -/

theorem pyMaxBy_nil {α : Type} (f : α → Int) (x : α) : pyMaxBy f x [] = x := rfl

theorem pyMaxBy_cons {α : Type} (f : α → Int) (x y : α) (ys : List α) :
    pyMaxBy f x (y :: ys) = pyMaxBy f (if f x < f y then y else x) ys := rfl

/-- The fold result maximises the key over the whole iterable. -/
theorem pyMaxBy_le {α : Type} (f : α → Int) :
    ∀ (xs : List α) (x : α), ∀ y ∈ x :: xs, f y ≤ f (pyMaxBy f x xs) := by
  intro xs
  induction xs with
  | nil =>
      intro x y hy
      rw [List.mem_singleton] at hy
      subst hy
      exact le_refl _
  | cons z zs ih =>
      intro x y hy
      rw [pyMaxBy_cons]
      have hstep : f x ≤ f (if f x < f z then z else x)
          ∧ f z ≤ f (if f x < f z then z else x) := by
        by_cases h : f x < f z <;> simp [h] <;> omega
      have htop : f (if f x < f z then z else x)
          ≤ f (pyMaxBy f (if f x < f z then z else x) zs) :=
        ih _ _ (List.mem_cons_self _ _)
      rcases List.mem_cons.mp hy with h | h
      · subst h; exact le_trans hstep.1 htop
      · rcases List.mem_cons.mp h with h2 | h2
        · subst h2; exact le_trans hstep.2 htop
        · exact ih _ y (List.mem_cons_of_mem _ h2)

/-- The fold result is the first element of the iterable attaining the
maximal key: ties are broken by iteration (insertion) order. -/
theorem pyMaxBy_first {α : Type} (f : α → Int) :
    ∀ (xs : List α) (x : α),
      (x :: xs).find? (fun y => decide (f (pyMaxBy f x xs) ≤ f y))
        = some (pyMaxBy f x xs) := by
  intro xs
  induction xs with
  | nil =>
      intro x
      rw [pyMaxBy_nil, List.find?_cons_of_pos _ (by simp)]
  | cons z zs ih =>
      intro x
      rw [pyMaxBy_cons]
      by_cases hxz : f x < f z
      · rw [if_pos hxz]
        have hzM : f z ≤ f (pyMaxBy f z zs) := pyMaxBy_le f zs z z (List.mem_cons_self _ _)
        rw [List.find?_cons_of_neg _ (by simp; omega)]
        exact ih z
      · rw [if_neg hxz]
        have hih := ih x
        by_cases hpx : f (pyMaxBy f x zs) ≤ f x
        · rw [List.find?_cons_of_pos _ (by simpa using hpx)] at hih
          rw [List.find?_cons_of_pos _ (by simpa using hpx)]
          exact hih
        · rw [List.find?_cons_of_neg _ (by simpa using hpx)] at hih
          rw [List.find?_cons_of_neg _ (by simpa using hpx)]
        -- f z ≤ f x < f M, so z is skipped as well
          have hzx : f z ≤ f x := le_of_not_lt hxz
          rw [List.find?_cons_of_neg _ (by simp; omega)]
          exact hih

/-! ## Theorems for C5 -/

/-- Concrete options producing a score tie between PyInstaller and Nuitka:
`optimize = true`, no obfuscation, no preferred compiler. -/
def tieOptions : CompilationOptions :=
  { sourcePath := "app.py", outputPath := "dist", optimize := true }

/-- Counterexample to C5: with every compiler available and `tieOptions`,
Nuitka and PyInstaller tie at score 90, Nuitka is alphabetically first among
the tied candidates, yet the scheduler selects PyInstaller (Python `max`
keeps the first key in dict insertion order on ties). -/
theorem select_best_compiler_tie_not_alphabetical :
    selectBestCompiler (fun _ => true) tieOptions = some CompilerType.pyinstaller
    ∧ nuitkaScore tieOptions = pyinstallerScore tieOptions
    ∧ CompilerType.nuitka ≠ CompilerType.pyinstaller
    ∧ compilerName CompilerType.nuitka < compilerName CompilerType.pyinstaller := by
  refine ⟨rfl, rfl, by decide, ?_⟩
  rw [String.lt_iff_toList_lt]
  decide

/-- C5 as amended: for every job with no explicit tool preference the
scheduler selects a candidate with the maximum score, and on ties the
earliest candidate in registry insertion order (PyInstaller, Nuitka,
cx_Freeze; UPX, LZMA, Brotli, Custom) is selected — stated as: the selected
tool is the first element of the available list whose score reaches the
selected tool's score, and every available tool scores no higher. -/
theorem select_best_picks_first_maximal (o : CompilationOptions)
    (avail : CompilerType → Bool) (availC : CompressionMethod → Bool)
    (fi : FileInfo) (hpref : o.preferredCompiler = none)
    (hc : compilerRegistry.filter (fun c => avail c) ≠ [])
    (hm : compressorRegistry.filter (fun m => availC m) ≠ []) :
    (∃ w, selectBestCompiler avail o = some w
      ∧ (∀ c ∈ compilerRegistry.filter (fun c => avail c),
          compilerScore o c ≤ compilerScore o w)
      ∧ (compilerRegistry.filter (fun c => avail c)).find?
          (fun c => decide (compilerScore o w ≤ compilerScore o c)) = some w)
    ∧ (∃ w, selectBestCompressor availC .auto fi = some w
      ∧ (∀ m ∈ compressorRegistry.filter (fun m => availC m),
          compressorScore fi m ≤ compressorScore fi w)
      ∧ (compressorRegistry.filter (fun m => availC m)).find?
          (fun m => decide (compressorScore fi w ≤ compressorScore fi m)) = some w) := by
  constructor
  · match hfl : compilerRegistry.filter (fun c => avail c), hc with
    | x :: xs, _ =>
        refine ⟨pyMaxBy (compilerScore o) x xs, ?_, ?_, ?_⟩
        · rw [selectBestCompiler, hpref, selectAutoCompiler, hfl]
        · exact pyMaxBy_le (compilerScore o) xs x
        · exact pyMaxBy_first (compilerScore o) xs x
  · match hfl : compressorRegistry.filter (fun m => availC m), hm with
    | x :: xs, _ =>
        refine ⟨pyMaxBy (compressorScore fi) x xs, ?_, ?_, ?_⟩
        · rw [selectBestCompressor, hfl]
          simp
        · exact pyMaxBy_le (compressorScore fi) xs x
        · exact pyMaxBy_first (compressorScore fi) xs x

/-- Witness for the amended C5 at a concrete job: all tools available,
`tieOptions`, and a 2 MiB PE executable for the compression side. -/
theorem select_best_picks_first_maximal_witness :
    (∃ w, selectBestCompiler (fun _ => true) tieOptions = some w
      ∧ (∀ c ∈ compilerRegistry.filter (fun _ => true),
          compilerScore tieOptions c ≤ compilerScore tieOptions w)
      ∧ (compilerRegistry.filter (fun _ => true)).find?
          (fun c => decide (compilerScore tieOptions w ≤ compilerScore tieOptions c))
            = some w)
    ∧ (∃ w, selectBestCompressor (fun _ => true) .auto peFileInfo = some w
      ∧ (∀ m ∈ compressorRegistry.filter (fun _ => true),
          compressorScore peFileInfo m ≤ compressorScore peFileInfo w)
      ∧ (compressorRegistry.filter (fun _ => true)).find?
          (fun m => decide (compressorScore peFileInfo w
            ≤ compressorScore peFileInfo m)) = some w) :=
  select_best_picks_first_maximal tieOptions (fun _ => true) (fun _ => true)
    peFileInfo rfl (by decide) (by decide)

/-! ## Theorems for C4 and C2 -/

/-- C4 (the code bug, exhibited): on every run where the Nuitka subprocess
exits with code zero, `NuitkaBackend.compile` returns a failure result whose
error text is the `AttributeError` for the missing `_find_output_file`
attribute — the locator is a dead function nested inside `compile` — even
though, at the concrete job compiled from `app.py` into `dist` with the
artifact present at `dist/app.exe`, the (dead) locator would have found that
artifact as its first existing candidate. -/
theorem nuitka_compile_zero_exit_always_fails (fsExists : String → Bool)
    (getsize : String → Int) (stderr : String) (o : CompilationOptions) :
    (nuitkaCompile fsExists getsize (.exits 0 stderr) o).success = false
    ∧ (nuitkaCompile fsExists getsize (.exits 0 stderr) o).errorMessage
        = some nuitkaAttrError
    ∧ nuitkaDeadFindOutputFile (fun p => p == "dist/app.exe")
        { sourcePath := "app.py", outputPath := "dist" } = some "dist/app.exe" := by
  refine ⟨rfl, rfl, ?_⟩
  decide

/-- Counterexample to C2: a PyInstaller compile whose subprocess exits with
code 1 and empty stderr returns `success = false` with error text `""` — the
error text of a failed stage can be empty. -/
theorem pyinstaller_failure_empty_error_text :
    (pyinstallerCompile (fun _ => false) (fun _ => 0) (.exits 1 "")
        { sourcePath := "app.py", outputPath := "dist" }).success = false
    ∧ (pyinstallerCompile (fun _ => false) (fun _ => 0) (.exits 1 "")
        { sourcePath := "app.py", outputPath := "dist" }).errorMessage
        = some "" :=
  ⟨rfl, rfl⟩

/-- Helper for C2: every failure result the `protect_code` loop returns
carries an error message, provided every backend failure result does (the
loop returns a failing backend result unchanged and otherwise builds a
success result). -/
theorem protectLoop_failure_has_error (avail : ObfuscationMethod → Bool)
    (run : ObfuscationMethod → String → ProtectionResult)
    (hbP : ∀ m p, (run m p).success = false → (run m p).errorMessage ≠ none) :
    ∀ (ms : List ObfuscationMethod) (st : ProtectLoopState),
      (protectLoop avail run ms st).success = false →
      (protectLoop avail run ms st).errorMessage ≠ none := by
  intro ms
  induction ms with
  | nil =>
      intro st h
      simp [protectLoop] at h
  | cons m rest ih =>
      intro st h
      by_cases ha : avail m
      · simp only [protectLoop, ha, if_true] at h ⊢
        by_cases hs : (run m st.currentPath).success
        · simp only [hs, if_true] at h ⊢
          exact ih _ h
        · simp only [hs, if_false] at h ⊢
          exact hbP m st.currentPath (by simpa using hs)
      · simp only [protectLoop, ha, if_false] at h ⊢
        exact ih _ h

/-- C2 as amended: each stage operation — `CompilerEngine.compile` (with its
two non-trivial backends), `CompressionHandler.compress_executable` (with the
UPX backend), and `ProtectionManager.protect_code` — returns a result value
for every subprocess outcome (exceptions raised inside the stage body,
including by the backend call, are caught and converted to failure results,
so none reaches the caller), and whenever the returned result has
`success = false` its error field is present (not `None`); the error text,
however, may be empty when it is the decoded stderr of the failed
subprocess.  The handler-level parts assume the backend invariant proved
here for the modelled backends (PyInstaller, Nuitka, UPX): a backend failure
result always carries an error message. -/
theorem stage_failure_has_error_field (fsE : String → Bool)
    (gs : String → Int) (sub : CompileSubprocOutcome) (o : CompilationOptions)
    (srcExists : Bool) (avail : CompilerType → Bool)
    (backendRun : CompilerType → BackendOutcome)
    (ua bo : Bool) (subU : UpxSubprocOutcome) (fs : UpxFsState)
    (exePath : String) (exeExists : Bool) (availC : CompressionMethod → Bool)
    (methodC : CompressionMethod) (fi : FileInfo)
    (backendRunC : CompressionMethod → CompressorOutcome)
    (protSrcExists : Bool) (availP : ObfuscationMethod → Bool)
    (runP : ObfuscationMethod → String → ProtectionResult)
    (level : ProtectionLevel) (methodsP : List ObfuscationMethod)
    (protSrc : String)
    (hb : ∀ ct r, backendRun ct = .returns r → r.success = false →
      r.errorMessage ≠ none)
    (hbC : ∀ m r, backendRunC m = .returns r → r.success = false →
      r.errorMessage ≠ none)
    (hbP : ∀ m p, (runP m p).success = false → (runP m p).errorMessage ≠ none) :
    ((pyinstallerCompile fsE gs sub o).success = false →
      (pyinstallerCompile fsE gs sub o).errorMessage ≠ none)
    ∧ ((nuitkaCompile fsE gs sub o).success = false →
      (nuitkaCompile fsE gs sub o).errorMessage ≠ none)
    ∧ ((compilerEngineCompile srcExists avail backendRun o).success = false →
      (compilerEngineCompile srcExists avail backendRun o).errorMessage ≠ none)
    ∧ ((upxCompress ua bo subU fs).1.success = false →
      (upxCompress ua bo subU fs).1.errorMessage ≠ none)
    ∧ ((compressExecutable exePath exeExists availC methodC fi
          backendRunC).success = false →
      (compressExecutable exePath exeExists availC methodC fi
          backendRunC).errorMessage ≠ none)
    ∧ ((protectCode protSrcExists availP runP level methodsP
          protSrc).success = false →
      (protectCode protSrcExists availP runP level methodsP
          protSrc).errorMessage ≠ none) := by
  refine ⟨?_, ?_, ?_, ?_, ?_, ?_⟩
  · intro hfail
    cases sub with
    | throws msg => simp [pyinstallerCompile]
    | exits code stderr =>
        by_cases hc : code = 0
        · subst hc
          cases hfind : (pyinstallerCandidates o).find? fsE with
          | some p => simp [pyinstallerCompile, hfind] at hfail
          | none => simp [pyinstallerCompile, hfind]
        · simp [pyinstallerCompile, hc]
  · intro _
    cases sub with
    | throws msg => simp [nuitkaCompile]
    | exits code stderr =>
        by_cases hc : code = 0
        · subst hc
          simp [nuitkaCompile, nuitkaBackendClassAttrs]
        · simp [nuitkaCompile, hc]
  · intro hfail
    cases srcExists with
    | false => simp [compilerEngineCompile]
    | true =>
        cases hsel : selectBestCompiler avail o with
        | none => simp [compilerEngineCompile, hsel]
        | some ct =>
            cases hrun : backendRun ct with
            | throws msg => simp [compilerEngineCompile, hsel, hrun]
            | returns r =>
                have : compilerEngineCompile true avail backendRun o = r := by
                  simp [compilerEngineCompile, hsel, hrun]
                rw [this] at hfail ⊢
                exact hb ct r hrun hfail
  · intro hfail
    cases ua with
    | false => simp [upxCompress, mkCompressionResult]
    | true =>
        cases hart : fs.artifact with
        | none => simp [upxCompress, hart, mkCompressionResult]
        | some orig =>
            cases subU with
            | throws msg fileAfter =>
                simp [upxCompress, hart, mkCompressionResult]
            | exits code stderr fileAfter =>
                by_cases hc : code = 0
                · subst hc
                  cases fileAfter with
                  | some compressed =>
                      simp [upxCompress, hart, mkCompressionResult] at hfail
                  | none => simp [upxCompress, hart, mkCompressionResult]
                · simp [upxCompress, hart, hc, mkCompressionResult]
  · intro hfail
    cases exeExists with
    | false => simp [compressExecutable, mkCompressionResult]
    | true =>
        cases hsel : selectBestCompressor availC methodC fi with
        | none => simp [compressExecutable, hsel, mkCompressionResult]
        | some m =>
            cases hrun : backendRunC m with
            | throws msg =>
                simp [compressExecutable, hsel, hrun, mkCompressionResult]
            | returns r =>
                have : compressExecutable exePath true availC methodC fi
                    backendRunC = r := by
                  simp [compressExecutable, hsel, hrun]
                rw [this] at hfail ⊢
                exact hbC m r hrun hfail
  · intro hfail
    cases protSrcExists with
    | false => simp [protectCode]
    | true =>
        rw [protectCode, if_pos rfl] at hfail ⊢
        exact protectLoop_failure_has_error availP runP hbP _ _ hfail

/-- Witness for the amended C2: concrete failing runs of all three stages
(raising compile and compression backends, a failing protector) each return a
result with its error field set. -/
theorem stage_failure_has_error_field_witness :
    ((pyinstallerCompile (fun _ => false) (fun _ => 0) (.throws "boom")
        { sourcePath := "app.py", outputPath := "dist" }).success = false →
      (pyinstallerCompile (fun _ => false) (fun _ => 0) (.throws "boom")
        { sourcePath := "app.py", outputPath := "dist" }).errorMessage ≠ none)
    ∧ ((nuitkaCompile (fun _ => false) (fun _ => 0) (.throws "boom")
        { sourcePath := "app.py", outputPath := "dist" }).success = false →
      (nuitkaCompile (fun _ => false) (fun _ => 0) (.throws "boom")
        { sourcePath := "app.py", outputPath := "dist" }).errorMessage ≠ none)
    ∧ ((compilerEngineCompile true (fun _ => true) (fun _ => .throws "boom")
        { sourcePath := "app.py", outputPath := "dist" }).success = false →
      (compilerEngineCompile true (fun _ => true) (fun _ => .throws "boom")
        { sourcePath := "app.py", outputPath := "dist" }).errorMessage ≠ none)
    ∧ ((upxCompress true true (.exits 1 "" none)
        { artifact := some [1, 2], backup := none }).1.success = false →
      (upxCompress true true (.exits 1 "" none)
        { artifact := some [1, 2], backup := none }).1.errorMessage ≠ none)
    ∧ ((compressExecutable "a.exe" true (fun _ => true) .auto peFileInfo
        (fun _ => .throws "boom")).success = false →
      (compressExecutable "a.exe" true (fun _ => true) .auto peFileInfo
        (fun _ => .throws "boom")).errorMessage ≠ none)
    ∧ ((protectCode true (fun _ => true)
        (fun _ _ => { success := false, errorMessage := some "fail" })
        .basic [] "src.py").success = false →
      (protectCode true (fun _ => true)
        (fun _ _ => { success := false, errorMessage := some "fail" })
        .basic [] "src.py").errorMessage ≠ none) :=
  stage_failure_has_error_field (fun _ => false) (fun _ => 0) (.throws "boom")
    { sourcePath := "app.py", outputPath := "dist" } true (fun _ => true)
    (fun _ => .throws "boom") true true (.exits 1 "" none)
    { artifact := some [1, 2], backup := none } "a.exe" true (fun _ => true)
    .auto peFileInfo (fun _ => .throws "boom") true (fun _ => true)
    (fun _ _ => { success := false, errorMessage := some "fail" })
    .basic [] "src.py"
    (by intro ct r h; simp at h)
    (by intro m r h; simp at h)
    (by intro m p _; simp)

/-! ## Theorems for C3 -/

/-- Counterexample to C3: for the entry module `app` importing the local
module `foo` (nothing builtin), the graph `_classify_dependencies` returns
has exactly the key `foo`, whose `required_by` contains `app` — yet `app`,
the entry module inserted as a parent, is not a key of the graph. -/
theorem classify_dependencies_parent_not_a_key :
    classifyDependencies (fun _ => false) false [("app", ["foo"])]
      = [("foo", ["app"])]
    ∧ "app" ∈ requiredBy [("app", ["foo"])] "foo"
    ∧ "app" ∉ (classifyDependencies (fun _ => false) false
        [("app", ["foo"])]).map Prod.fst := by
  refine ⟨by decide, by decide, by decide⟩

/-- C3 as amended: every module name appearing in the `required_by` set of
any node of the graph returned by `_classify_dependencies` is a key of the
merged parent map handed to classification (i.e. it is a parent module, the
entry module included); it need not be a key of the returned graph itself —
the entry module is a key only when it is itself imported. -/
theorem required_by_members_are_parent_map_keys
    (isBuiltin : String → Bool) (includeStdlib : Bool)
    (dependencies : List (String × List String)) (m : String)
    (rb : List String)
    (hmem : (m, rb) ∈ classifyDependencies isBuiltin includeStdlib dependencies)
    (p : String) (hp : p ∈ rb) :
    p ∈ dependencies.map Prod.fst := by
  rcases List.mem_map.mp hmem with ⟨k, _, hk⟩
  have hrb : rb = requiredBy dependencies m := by
    have h1 : k = m := congrArg Prod.fst hk
    have h2 := congrArg Prod.snd hk
    simp only at h2
    rw [← h2, h1]
  rw [hrb] at hp
  rcases List.mem_map.mp hp with ⟨pd, hpd, hfst⟩
  have : pd ∈ dependencies := List.mem_of_mem_filter hpd
  exact hfst ▸ List.mem_map_of_mem Prod.fst this

/-- Witness for the amended C3 at the concrete counterexample input: the
parent `app` found in the `required_by` of node `foo` is a key of the merged
parent map. -/
theorem required_by_members_are_parent_map_keys_witness :
    "app" ∈ [("app", ["foo"])].map Prod.fst :=
  required_by_members_are_parent_map_keys (fun _ => false) false
    [("app", ["foo"])] "foo" ["app"] (by decide) "app" (by decide)

/-! ## Theorems for C6 -/

/-- The frequency-dict entropy of the source equals the Shannon entropy
summed over the set of occurring byte values. -/
theorem calculateEntropy_eq_shannonEntropy (data : List Nat) :
    calculateEntropy data = shannonEntropy data := by
  unfold calculateEntropy shannonEntropy
  by_cases hd : data = []
  · subst hd; simp
  · have htf : data.dedup.toFinset = data.toFinset := by
      ext x; simp [List.mem_dedup]
    rw [if_neg hd, ← List.sum_toFinset (entropyTerm data) data.nodup_dedup, htf]

/-- The adjacent-repeat counting loop counts the consecutive pairs with equal
components. -/
theorem countAdjacentRepeats_eq_countP :
    ∀ l : List Nat,
      countAdjacentRepeats l
        = (l.zip l.tail).countP (fun p => decide (p.1 = p.2)) := by
  intro l
  induction l with
  | nil => rfl
  | cons a t ih =>
      cases t with
      | nil => rfl
      | cons b rest =>
          rw [show countAdjacentRepeats (a :: b :: rest)
              = (if a = b then 1 else 0) + countAdjacentRepeats (b :: rest)
            from rfl]
          rw [ih]
          simp only [List.tail_cons, List.zip_cons_cons, List.countP_cons]
          by_cases hab : a = b
          · simp only [hab, if_pos rfl, decide_eq_true_eq]
            simp
            omega
          · simp [hab]

/-- The repetition ratio of the source equals the specification-style
consecutive-pair formulation. -/
theorem calculateRepetitionRatio_eq (data : List Nat) :
    calculateRepetitionRatio data = adjacentRepeatRatio data := by
  unfold calculateRepetitionRatio adjacentRepeatRatio
  rw [countAdjacentRepeats_eq_countP]

open Classical in
/-- C6: for every input byte string (of length under `2^32`, the range
`struct.pack("<I", ...)` accepts), the adaptive compressor writes a file that
begins with the 4 magic bytes `PFC\x01` (80, 70, 67, 1), followed by the
original length as a 4-byte little-endian integer (4 bytes, each under 256,
decoding back to the length), followed by the compressed payload; and the
payload is produced by LZMA (preset `lzma_preset or 9`) when the Shannon
entropy is below 6.0 and the byte-repetition ratio exceeds 0.3, otherwise by
Brotli when the library is present and the input is smaller than 1 MiB,
otherwise by LZMA at the lower preset `lzma_preset or 6`. -/
theorem adaptive_compressor_frame_and_delegation (brotliAvailable : Bool)
    (lzmaCompress brotliCompress : Nat → List Nat → List Nat)
    (lzmaPreset brotliQuality : Nat) (data : List Nat)
    (h : data.length < 2 ^ 32) :
    (customCompressOutput brotliAvailable lzmaCompress brotliCompress
        lzmaPreset brotliQuality data).take 4 = [80, 70, 67, 1]
    ∧ ((customCompressOutput brotliAvailable lzmaCompress brotliCompress
        lzmaPreset brotliQuality data).drop 4).take 4 = packLE32 data.length
    ∧ (customCompressOutput brotliAvailable lzmaCompress brotliCompress
        lzmaPreset brotliQuality data).drop 8
        = optimalCompress brotliAvailable lzmaCompress brotliCompress
            lzmaPreset brotliQuality data
    ∧ le32Value (packLE32 data.length) = data.length
    ∧ (∀ b ∈ packLE32 data.length, b < 256)
    ∧ optimalCompress brotliAvailable lzmaCompress brotliCompress
        lzmaPreset brotliQuality data
        = (if shannonEntropy data < 6
              ∧ (3 : ℚ) / 10 < adjacentRepeatRatio data then
            lzmaCompress (if lzmaPreset = 0 then 9 else lzmaPreset) data
          else if brotliAvailable = true ∧ data.length < 1024 * 1024 then
            brotliCompress (if brotliQuality = 0 then 11 else brotliQuality) data
          else
            lzmaCompress (if lzmaPreset = 0 then 6 else lzmaPreset) data) := by
  refine ⟨rfl, rfl, rfl, ?_, ?_, ?_⟩
  · simp only [packLE32, le32Value]
    omega
  · simp only [packLE32]
    intro b hb
    simp only [List.mem_cons, List.not_mem_nil, or_false] at hb
    rcases hb with rfl | rfl | rfl | rfl <;> omega
  · by_cases hcond : calculateEntropy data < 6
        ∧ (3 : ℚ) / 10 < calculateRepetitionRatio data
    · have hcond2 : shannonEntropy data < 6
          ∧ (3 : ℚ) / 10 < adjacentRepeatRatio data := by
        rwa [← calculateEntropy_eq_shannonEntropy, ← calculateRepetitionRatio_eq]
      rw [optimalCompress, if_pos hcond, if_pos hcond2]
    · have hcond2 : ¬ (shannonEntropy data < 6
          ∧ (3 : ℚ) / 10 < adjacentRepeatRatio data) := by
        rwa [← calculateEntropy_eq_shannonEntropy, ← calculateRepetitionRatio_eq]
      rw [optimalCompress, if_neg hcond, if_neg hcond2]

/-- Witness for C6 at a concrete input (the empty byte string, Brotli
present). -/
theorem adaptive_compressor_frame_and_delegation_witness :
    (customCompressOutput true (fun _ d => d) (fun _ d => d) 9 11
        ([] : List Nat)).take 4 = [80, 70, 67, 1]
    ∧ ((customCompressOutput true (fun _ d => d) (fun _ d => d) 9 11
        ([] : List Nat)).drop 4).take 4 = packLE32 ([] : List Nat).length
    ∧ (customCompressOutput true (fun _ d => d) (fun _ d => d) 9 11
        ([] : List Nat)).drop 8
      = optimalCompress true (fun _ d => d) (fun _ d => d) 9 11 ([] : List Nat)
    ∧ le32Value (packLE32 ([] : List Nat).length) = ([] : List Nat).length
    ∧ (∀ b ∈ packLE32 ([] : List Nat).length, b < 256)
    ∧ optimalCompress true (fun _ d => d) (fun _ d => d) 9 11 ([] : List Nat)
        = (if shannonEntropy ([] : List Nat) < 6
              ∧ (3 : ℚ) / 10 < adjacentRepeatRatio ([] : List Nat) then
            (fun _ d => d : Nat → List Nat → List Nat)
              (if (9 : Nat) = 0 then 9 else 9) ([] : List Nat)
          else if true = true ∧ ([] : List Nat).length < 1024 * 1024 then
            (fun _ d => d : Nat → List Nat → List Nat)
              (if (11 : Nat) = 0 then 11 else 11) ([] : List Nat)
          else
            (fun _ d => d : Nat → List Nat → List Nat)
              (if (9 : Nat) = 0 then 6 else 9) ([] : List Nat)) :=
  adaptive_compressor_frame_and_delegation true (fun _ d => d) (fun _ d => d)
    9 11 ([] : List Nat) (by decide)

/-! ## Theorems for C8: the base64 round trip -/

/-- Inverse alphabet lookup inverts the alphabet, on `Fin 64`. -/
theorem b64CharInv_b64Char_fin :
    ∀ m : Fin 64, b64CharInv (b64Char m.val) = some m.val := by decide

/-- Inverse alphabet lookup inverts the alphabet. -/
theorem b64CharInv_b64Char (n : Nat) (h : n < 64) :
    b64CharInv (b64Char n) = some n :=
  b64CharInv_b64Char_fin ⟨n, h⟩

/-- No alphabet character is the padding character `=` (ASCII 61). -/
theorem b64Char_ne_61 (n : Nat) : b64Char n ≠ 61 := by
  unfold b64Char
  split_ifs <;> omega

/-- Alphabet characters are bytes. -/
theorem b64Char_lt_256 (n : Nat) : b64Char n < 256 := by
  unfold b64Char
  split_ifs <;> omega

/-- Encoder output consists of bytes. -/
theorem b64EncodeBytes_bytes :
    ∀ s : List Nat, ∀ x ∈ b64EncodeBytes s, x < 256 := by
  intro s
  induction s using b64EncodeBytes.induct with
  | case1 a b c rest ih =>
      intro x hx
      simp only [b64EncodeBytes, List.mem_cons] at hx
      rcases hx with rfl | rfl | rfl | rfl | hx
      · exact b64Char_lt_256 _
      · exact b64Char_lt_256 _
      · exact b64Char_lt_256 _
      · exact b64Char_lt_256 _
      · exact ih x hx
  | case2 a b =>
      intro x hx
      simp only [b64EncodeBytes, List.mem_cons, List.not_mem_nil, or_false] at hx
      rcases hx with rfl | rfl | rfl | rfl
      · exact b64Char_lt_256 _
      · exact b64Char_lt_256 _
      · exact b64Char_lt_256 _
      · omega
  | case3 a =>
      intro x hx
      simp only [b64EncodeBytes, List.mem_cons, List.not_mem_nil, or_false] at hx
      rcases hx with rfl | rfl | rfl | rfl
      · exact b64Char_lt_256 _
      · exact b64Char_lt_256 _
      · omega
      · omega
  | case4 =>
      intro x hx
      simp [b64EncodeBytes] at hx

/-- The round trip: decoding an encoded byte string restores it. -/
theorem b64_decode_encode :
    ∀ s : List Nat, (∀ b ∈ s, b < 256) →
      b64DecodeBytes (b64EncodeBytes s) = some s := by
  intro s
  induction s using b64EncodeBytes.induct with
  | case1 a b c rest ih =>
      intro hw
      have ha : a < 256 := hw a (by simp)
      have hb : b < 256 := hw b (by simp)
      have hc : c < 256 := hw c (by simp)
      have hrest : ∀ x ∈ rest, x < 256 := fun x hx => hw x (by simp [hx])
      simp only [b64EncodeBytes, b64DecodeBytes,
        b64CharInv_b64Char (a / 4) (by omega),
        b64CharInv_b64Char ((a % 4) * 16 + b / 16) (by omega),
        b64CharInv_b64Char ((b % 16) * 4 + c / 64) (by omega),
        b64CharInv_b64Char (c % 64) (by omega),
        if_neg (b64Char_ne_61 ((b % 16) * 4 + c / 64)),
        if_neg (b64Char_ne_61 (c % 64)), ih hrest]
      simp only [Option.some.injEq, List.cons.injEq]
      refine ⟨by omega, by omega, by omega, trivial⟩
  | case2 a b =>
      intro hw
      have ha : a < 256 := hw a (by simp)
      have hb : b < 256 := hw b (by simp)
      simp only [b64EncodeBytes, b64DecodeBytes,
        b64CharInv_b64Char (a / 4) (by omega),
        b64CharInv_b64Char ((a % 4) * 16 + b / 16) (by omega),
        b64CharInv_b64Char ((b % 16) * 4) (by omega),
        if_neg (b64Char_ne_61 ((b % 16) * 4)), if_pos rfl, if_true,
        Option.some.injEq, List.cons.injEq]
      refine ⟨by omega, by omega, trivial⟩
  | case3 a =>
      intro hw
      have ha : a < 256 := hw a (by simp)
      simp only [b64EncodeBytes, b64DecodeBytes,
        b64CharInv_b64Char (a / 4) (by omega),
        b64CharInv_b64Char ((a % 4) * 16) (by omega), if_pos rfl,
        if_pos (And.intro rfl rfl), and_self, if_true,
        Option.some.injEq, List.cons.injEq]
      refine ⟨by omega, trivial⟩
  | case4 =>
      intro _
      rfl

/-! ## Theorems for C8: the pass preserves well-formedness and evaluation -/

mutual
theorem wf_obfuscateStrings :
    ∀ t : PyExpr, wfExpr t = true → wfExpr (obfuscateStrings t) = true
  | .constStr s, h => by
      by_cases hl : 3 < s.length
      · simp only [obfuscateStrings, if_pos hl, wfExpr, List.all_eq_true,
          decide_eq_true_eq]
        intro x hx
        exact b64EncodeBytes_bytes s x hx
      · simpa [obfuscateStrings, hl] using h
  | .constInt n, h => h
  | .b64DecodeCall a, h => by
      simp only [obfuscateStrings, wfExpr] at h ⊢
      exact wf_obfuscateStrings a h
  | .node k cs, h => by
      simp only [obfuscateStrings, wfExpr] at h ⊢
      exact wf_obfuscateStringsList cs h
theorem wf_obfuscateStringsList :
    ∀ ts : PyExprList, wfList ts = true → wfList (obfuscateStringsList ts) = true
  | .nil, h => h
  | .cons e es, h => by
      simp only [obfuscateStringsList, wfList, Bool.and_eq_true] at h ⊢
      exact ⟨wf_obfuscateStrings e h.1, wf_obfuscateStringsList es h.2⟩
end

mutual
theorem eval_obfuscateStrings :
    ∀ t : PyExpr, wfExpr t = true →
      evalExpr (obfuscateStrings t) = evalExpr t
  | .constStr s, h => by
      by_cases hl : 3 < s.length
      · have hw : ∀ b ∈ s, b < 256 := by
          simp only [wfExpr, List.all_eq_true, decide_eq_true_eq] at h
          exact h
        simp only [obfuscateStrings, if_pos hl, evalExpr,
          b64_decode_encode s hw]
      · simp [obfuscateStrings, hl]
  | .constInt n, _ => rfl
  | .b64DecodeCall a, h => by
      have ha : wfExpr a = true := by simpa [wfExpr] using h
      simp only [obfuscateStrings, evalExpr, eval_obfuscateStrings a ha]
  | .node k cs, h => by
      have hcs : wfList cs = true := by simpa [wfExpr] using h
      simp only [obfuscateStrings, evalExpr, eval_obfuscateStringsList cs hcs]
theorem eval_obfuscateStringsList :
    ∀ ts : PyExprList, wfList ts = true →
      evalList (obfuscateStringsList ts) = evalList ts
  | .nil, _ => rfl
  | .cons e es, h => by
      have h1 : wfExpr e = true := by
        simp only [wfList, Bool.and_eq_true] at h
        exact h.1
      have h2 : wfList es = true := by
        simp only [wfList, Bool.and_eq_true] at h
        exact h.2
      simp only [obfuscateStringsList, evalList, eval_obfuscateStrings e h1,
        eval_obfuscateStringsList es h2]
end

end PyForgee
